import Mathlib

/-!
Verification of the dircrab scan engine (src/src/lib.rs, src/src/main.rs).

The development shallowly embeds the scan engine: the request templater,
the response evaluator and its filter pipeline (`perform_scan`,
lib.rs 54-264), the worker task body and the breadth-first drain loop of
the orchestrator (`start_scan`, lib.rs 266-415), the per-base-URL loop of
`main` (main.rs 387-437), and a permit-counting model of the worker-pool
semaphore (lib.rs 289, 347-355).

Modelling conventions:
* `url::Url` becomes a record of scheme, host, path and query pairs;
  equality is structural (the url crate compares canonical forms).
  Percent-encoding and URL normalisation performed by the url crate are
  abstracted away.
* The HTTP transport becomes a function from the built request to either
  a response or a transport-failure message (`Network`); `reqwest` body
  reads are total in the model (`res.text()` failures are not modelled).
* The bounded mpsc event channel is modelled as the list of events a
  component sends, in the order it sends them; sends never fail in the
  model (the sink outlives the scan).
* String operations (`replace`, `contains`, `ends_with`, `trim`,
  `splitn(2, char)`, whitespace/line splitting) are re-implemented by
  structural recursion over the character list so that every definition
  evaluates by kernel reduction.
* Concurrency: worker tasks of the drain loop are modelled as running to
  completion in spawn order.  The visited/queue update of lib.rs 382-391
  is performed under the visited-set and queue mutexes in the source, so
  the deduplication and depth facts proved here do not depend on the
  schedule; event interleaving across workers is not a subject of any
  proof except per-task order.  The semaphore bound is modelled
  separately as a step relation quantifying over all schedules.
-/

namespace Dircrab

/-! ## String helpers (structural re-implementations of the Rust string
operations used by lib.rs) -/

/-- Does `pat` occur in `l` as a contiguous sublist?  Models Rust
`str::contains` for the literal patterns used by the code ("FUZZ").  -/
def containsAux (pat : List Char) : List Char → Bool
  | [] => pat.isPrefixOf ([] : List Char)
  | c :: rest => pat.isPrefixOf (c :: rest) || containsAux pat rest

/-- Rust `str::contains` on the character-list representation. -/
def strContains (s pat : String) : Bool :=
  containsAux pat.data s.data

/-- Replace every (leftmost, non-overlapping) occurrence of `pat` by `rep`,
with fuel bounding the recursion; fuel `l.length` always suffices for a
non-empty `pat`.  Models Rust `str::replace` (always called with the
non-empty pattern "FUZZ"). -/
def replaceAux (pat rep : List Char) : Nat → List Char → List Char
  | 0, l => l
  | _ + 1, [] => []
  | n + 1, c :: rest =>
    if pat.isPrefixOf (c :: rest) then
      rep ++ replaceAux pat rep n ((c :: rest).drop pat.length)
    else
      c :: replaceAux pat rep n rest

/-- Rust `str::replace`. -/
def strReplace (s pat rep : String) : String :=
  String.mk (replaceAux pat.data rep.data s.data.length s.data)

/-- Rust `str::ends_with` for a literal suffix. -/
def strEndsWith (s suffix : String) : Bool :=
  suffix.data.isSuffixOf s.data

/-- Rust `str::trim` (leading and trailing whitespace removed). -/
def strTrim (s : String) : String :=
  String.mk (((s.data.dropWhile Char.isWhitespace).reverse.dropWhile Char.isWhitespace).reverse)

/-- Split at the first ':' — Rust `str::splitn(2, ':')` when a colon is
present (`none` when the string has no colon at all). -/
def splitFirstColonAux : List Char → Option (List Char × List Char)
  | [] => none
  | c :: rest =>
    if c = ':' then some ([], rest)
    else (splitFirstColonAux rest).map (fun p => (c :: p.1, p.2))

def splitFirstColon (s : String) : Option (String × String) :=
  (splitFirstColonAux s.data).map (fun p => (String.mk p.1, String.mk p.2))

/-- Number of maximal non-whitespace runs: Rust
`str::split_whitespace().count()` (lib.rs 196).  The Boolean argument
records whether the previous character belonged to a word. -/
def tokenCount : List Char → Bool → Nat
  | [], _ => 0
  | c :: rest, inWord =>
    if Char.isWhitespace c then tokenCount rest false
    else (if inWord then 0 else 1) + tokenCount rest true

/-- lib.rs 196: `body.split_whitespace().count()`. -/
def wordsCount (s : String) : Nat := tokenCount s.data false

/-- lib.rs 197: `body.chars().count()`. -/
def charsCount (s : String) : Nat := s.data.length

/-- Count lines the way Rust `str::lines().count()` does (lib.rs 198):
each newline terminates a counted line and a final non-empty fragment
counts as one more line.  The Boolean records whether the current line
fragment is non-empty. -/
def linesCountAux : List Char → Bool → Nat
  | [], inLine => if inLine then 1 else 0
  | c :: rest, _ =>
    if c = '\n' then 1 + linesCountAux rest false
    else linesCountAux rest true

/-- lib.rs 198: `body.lines().count()`. -/
def linesCount (s : String) : Nat := linesCountAux s.data false

/-! ## Data model (lib.rs 9-52) -/

/-- lib.rs 9-25: `ScanEvent`. -/
inductive ScanEvent where
  | FoundUrl (line : String)
  | RequestCompleted
  | ErrorOccurred (msg : String)
  | ScanStarted (total_words : Nat)
  | ScanFinished
  | ScanStopped
  | Warning (msg : String)
deriving DecidableEq

/-- lib.rs 27-31: `ControlEvent`. -/
inductive ControlEvent where
  | Stop
deriving DecidableEq

/-- lib.rs 33-41: `FuzzMode`. -/
inductive FuzzMode where
  | Path
  | Subdomain
  | Parameter
deriving DecidableEq

/-- lib.rs 43-52: `HttpMethod`. -/
inductive HttpMethod where
  | GET
  | POST
  | PUT
  | DELETE
  | HEAD
  | OPTIONS
  | PATCH
deriving DecidableEq

/-- A parsed absolute URL (`url::Url`): scheme, host, path, parsed query
pairs.  Equality is structural; the url crate's equality on canonical
string forms is modelled by it. -/
structure Url where
  scheme : String
  host : String
  path : String
  query : List (String × String)
deriving DecidableEq

/-- Render the query pairs after `?`, separated by `&`. -/
def joinPairs : List (String × String) → String
  | [] => ""
  | p :: rest => "&" ++ p.1 ++ "=" ++ p.2 ++ joinPairs rest

def Url.queryStr (u : Url) : String :=
  match u.query with
  | [] => ""
  | p :: rest => "?" ++ p.1 ++ "=" ++ p.2 ++ joinPairs rest

/-- `url::Url::to_string` (canonical form, modulo the abstractions noted
at the top of the file). -/
def Url.toStr (u : Url) : String :=
  u.scheme ++ "://" ++ u.host ++ u.path ++ u.queryStr

/-- lib.rs 250-256: ensure the path of a URL ends with '/' (directory
semantics for 2xx recursion candidates). -/
def ensurePathSlash (u : Url) : Url :=
  if strEndsWith u.path "/" then u
  else { u with path := u.path ++ "/" }

/-- lib.rs 60-68 and main.rs: the eight optional response filters. -/
structure Filters where
  include_status : Option (List Nat)
  exclude_status : Option (List Nat)
  exact_words : Option (List Nat)
  exact_chars : Option (List Nat)
  exact_lines : Option (List Nat)
  exclude_exact_words : Option (List Nat)
  exclude_exact_chars : Option (List Nat)
  exclude_exact_lines : Option (List Nat)
deriving DecidableEq

/-- The empty filter set (every field absent). -/
def noFilters : Filters := ⟨none, none, none, none, none, none, none, none⟩

/-- A built HTTP request: what lib.rs 120-150 hands to reqwest. -/
structure HttpRequest where
  method : HttpMethod
  url : Url
  headers : List (String × String)
  body : Option String
deriving DecidableEq

/-- An HTTP response as observed by lib.rs 165-199: status code, optional
Location header (already `None` when missing or non-ASCII), body text. -/
structure HttpResponse where
  status : Nat
  location : Option String
  body : String
deriving DecidableEq

/-- The transport: either a response or a transport failure (connect, TLS,
timeout, DNS) carrying its display message (lib.rs 152-162). -/
def Network : Type := HttpRequest → Except String HttpResponse

/-- `reqwest::StatusCode::is_success`: 2xx. -/
def isSuccess (s : Nat) : Bool := decide (200 ≤ s) && decide (s < 300)

/-- `reqwest::StatusCode::is_redirection`: 3xx. -/
def isRedirection (s : Nat) : Bool := decide (300 ≤ s) && decide (s < 400)

/-! ## Request templating (lib.rs 73-150) -/

/-- Errors `perform_scan` can return (its `anyhow::Result`), as far as the
claims distinguish them. -/
inductive ScanError where
  | markerMissing
  | transport (msg : String)
deriving DecidableEq

/-- lib.rs 94-106: walk the query pairs in order; the first pair whose
value contains "FUZZ" has the marker replaced by the word; the remaining
pairs are untouched.  `none` when no value contains the marker. -/
def fuzzQueryPairs (w : String) : List (String × String) → Option (List (String × String))
  | [] => none
  | (k, v) :: rest =>
    if strContains v "FUZZ" then some ((k, strReplace v "FUZZ" w) :: rest)
    else
      match fuzzQueryPairs w rest with
      | some rest2 => some ((k, v) :: rest2)
      | none => none

/-- lib.rs 79-86 (Path mode): the code renders the base URL to a string,
appends '/' if the string does not already end with one, appends the word
and re-parses.  For a query-free base this puts the word at the end of
the path; the model states that directly (re-parsing of an arbitrary
concatenation, and its possible failure, are abstracted; no claim
depends on this branch's internals). -/
def pathModeTarget (base : Url) (w : String) : Url :=
  { base with path := (if strEndsWith base.path "/" then base.path else base.path ++ "/") ++ w }

/-- lib.rs 87-93 (Subdomain mode): replace "FUZZ" in the host.  A host
without the marker is left unchanged (silent no-op, as in the source). -/
def subdomainTarget (base : Url) (w : String) : Url :=
  { base with host := strReplace base.host "FUZZ" w }

/-- lib.rs 73-118: compute the target URL for one (base, word) pair.  When
the method is POST and a body template is present, every fuzz-mode URL
substitution is skipped and the base URL is used unchanged (lines 75-77).
Parameter mode fails with the marker-missing error when no query value
contains "FUZZ" (lines 107-111). -/
def templateUrl (method : HttpMethod) (data : Option String) (mode : FuzzMode)
    (base : Url) (w : String) : Except ScanError Url :=
  if method = HttpMethod.POST ∧ data.isSome = true then Except.ok base
  else
    match mode with
    | FuzzMode.Path => Except.ok (pathModeTarget base w)
    | FuzzMode.Subdomain => Except.ok (subdomainTarget base w)
    | FuzzMode.Parameter =>
      match fuzzQueryPairs w base.query with
      | some qs => Except.ok { base with query := qs }
      | none => Except.error ScanError.markerMissing

/-- lib.rs 130-135: a POST request with a body template gets the template
with "FUZZ" replaced by the word; every other request has no body. -/
def buildBody (method : HttpMethod) (data : Option String) (w : String) : Option String :=
  match method, data with
  | HttpMethod.POST, some t => some (strReplace t "FUZZ" w)
  | _, _ => none

/-- lib.rs 137-150: parse one "Name: Value" header template; split at the
first ':', trim both sides, substitute "FUZZ" in the value; a string
without a colon is skipped (with a console warning in the source). -/
def buildHeader (w : String) (s : String) : Option (String × String) :=
  match splitFirstColon s with
  | none => none
  | some (n, v) =>
    let value := strTrim v
    some (strTrim n, if strContains value "FUZZ" then strReplace value "FUZZ" w else value)

def buildHeaders (w : String) (hs : List String) : List (String × String) :=
  hs.filterMap (buildHeader w)

/-- lib.rs 73-150 combined: the request `perform_scan` builds and sends
for one (base, word) pair, or the templating error. -/
def scanRequest (base : Url) (w : String) (method : HttpMethod) (mode : FuzzMode)
    (headers : List String) (data : Option String) : Except ScanError HttpRequest :=
  match templateUrl method data mode base w with
  | Except.ok target =>
    Except.ok { method := method, url := target,
                headers := buildHeaders w headers, body := buildBody method data w }
  | Except.error e => Except.error e

/-! ## Response evaluation (lib.rs 152-263) -/

/-- lib.rs 180-190: include list takes precedence; otherwise the exclude
list; otherwise 404 is implicitly excluded. -/
def statusPass (f : Filters) (status : Nat) : Bool :=
  match f.include_status with
  | some incl => incl.contains status
  | none =>
    match f.exclude_status with
    | some excl => !excl.contains status
    | none => status != 404

/-- lib.rs 192-200: body metrics (words, chars, lines); a 301 response is
assigned (0, 0, 0) without reading the body. -/
def bodyMetrics (status : Nat) (body : String) : Nat × Nat × Nat :=
  if status = 301 then (0, 0, 0)
  else (wordsCount body, charsCount body, linesCount body)

/-- lib.rs 202-232: each present exact list must contain the count, each
present exclude-exact list must not. -/
def metricsPass (f : Filters) (w c l : Nat) : Bool :=
  (match f.exact_words with | some xs => xs.contains w | none => true) &&
  (match f.exact_chars with | some xs => xs.contains c | none => true) &&
  (match f.exact_lines with | some xs => xs.contains l | none => true) &&
  (match f.exclude_exact_words with | some xs => !xs.contains w | none => true) &&
  (match f.exclude_exact_chars with | some xs => !xs.contains c | none => true) &&
  (match f.exclude_exact_lines with | some xs => !xs.contains l | none => true)

/-- The combined filter pipeline: a response passes iff the status rule
passes and every present body-metric rule passes. -/
def responsePasses (f : Filters) (res : HttpResponse) : Bool :=
  statusPass f res.status &&
    metricsPass f (bodyMetrics res.status res.body).1
      (bodyMetrics res.status res.body).2.1 (bodyMetrics res.status res.body).2.2

/-- The display form of a status (reqwest shows code and canonical reason,
"200 OK"; the table covers the statuses used concretely here, other codes
fall back to the bare number). -/
def statusDisplay (s : Nat) : String :=
  if s = 200 then "200 OK"
  else if s = 301 then "301 Moved Permanently"
  else if s = 404 then "404 Not Found"
  else toString s

/-- lib.rs 234-243: the FoundUrl payload line. -/
def formatOutput (status : Nat) (urlStr redirectTarget : String) (w c l : Nat) : String :=
  if status = 301 then
    "[" ++ statusDisplay status ++ "] " ++ urlStr ++ " -> " ++ redirectTarget ++
      " [" ++ toString w ++ "W, " ++ toString c ++ "C, " ++ toString l ++ "L]"
  else
    "[" ++ statusDisplay status ++ "] " ++ urlStr ++
      " [" ++ toString w ++ "W, " ++ toString c ++ "C, " ++ toString l ++ "L]"

/-- The FoundUrl payload for a passing response (lib.rs 234-243; the 301
redirect target defaults to "unknown" per lines 169-177). -/
def foundLine (target : Url) (res : HttpResponse) : String :=
  formatOutput res.status target.toStr
    (if res.status = 301 then res.location.getD "unknown" else "")
    (bodyMetrics res.status res.body).1 (bodyMetrics res.status res.body).2.1
    (bodyMetrics res.status res.body).2.2

/-- lib.rs 165-263 (after a response arrived): the events sent on the
event channel (RequestCompleted at line 155, then possibly one FoundUrl
at line 245) and the recursion candidate of lines 249-263. -/
def evalResponse (f : Filters) (target : Url) (res : HttpResponse) :
    List ScanEvent × Option Url :=
  if statusPass f res.status = false then
    ([ScanEvent.RequestCompleted], none)
  else if metricsPass f (bodyMetrics res.status res.body).1
      (bodyMetrics res.status res.body).2.1 (bodyMetrics res.status res.body).2.2 = false then
    ([ScanEvent.RequestCompleted], none)
  else
    ([ScanEvent.RequestCompleted, ScanEvent.FoundUrl (foundLine target res)],
     if isSuccess res.status then some (ensurePathSlash target)
     else if isRedirection res.status then some target
     else none)

/-- The pair `perform_scan` produces: the events it sends on the event
channel, in order, and its `Result<Option<Url>>`. -/
structure ScanOutcome where
  events : List ScanEvent
  result : Except ScanError (Option Url)

/-- lib.rs 54-264: `perform_scan`.  Templating failure sends nothing and
returns the error; transport failure sends exactly one ErrorOccurred (and
no RequestCompleted) and returns the error; a response sends exactly one
RequestCompleted, then one FoundUrl iff every filter passes, and returns
the recursion candidate. -/
def performScan (net : Network) (base : Url) (w : String) (method : HttpMethod)
    (f : Filters) (mode : FuzzMode) (headers : List String) (data : Option String) :
    ScanOutcome :=
  match scanRequest base w method mode headers data with
  | Except.error e => { events := [], result := Except.error e }
  | Except.ok req =>
    match net req with
    | Except.error msg =>
      { events := [ScanEvent.ErrorOccurred msg],
        result := Except.error (ScanError.transport msg) }
    | Except.ok res =>
      let er := evalResponse f req.url res
      { events := er.1, result := Except.ok er.2 }

/-! ## Orchestration (lib.rs 266-415, main.rs 387-437) -/

/-- The arguments of `start_scan` that stay fixed for a whole scan
(client handle, delay and the control receiver are dropped: the client is
inside `Network`, the delay only schedules, and `_ctrl_rx` is never read
by the implementation). -/
structure ScanConfig where
  words : List String
  method : HttpMethod
  filters : Filters
  max_depth : Nat
  mode : FuzzMode
  headers : List String
  data : Option String

/-- The mutable state of one `start_scan` run: the work queue of
(url, depth) pairs, the visited set (a list standing for the `HashSet`,
membership by structural URL equality), and the events sent so far.
`pushed` and `found` are audit fields for the proofs: every discovered
URL pushed onto the queue (lib.rs 386-389) with the depth it was pushed
at, and every FoundUrl line with the expansion count of its URL (the
depth of the work item it was probed from, plus one). -/
structure ScanState where
  queue : List (Url × Nat)
  visited : List Url
  events : List ScanEvent
  pushed : List (Url × Nat)
  found : List (String × Nat)
deriving DecidableEq

/-- lib.rs 347-380 (event part): everything one spawned worker task sends
on the event channel: the progress `RequestCompleted` of line 358, sent
before the request is issued, then the events `perform_scan` sends. -/
def taskEvents (cfg : ScanConfig) (net : Network) (u : Url) (w : String) : List ScanEvent :=
  ScanEvent.RequestCompleted ::
    (performScan net u w cfg.method cfg.filters cfg.mode cfg.headers cfg.data).events

/-- Append one task's channel events to the state and record the audit
`found` entries (each FoundUrl line of the outcome, tagged with depth
`d + 1`: the probed URL is one expansion beyond the depth-`d` item). -/
def appendTaskEvents (oc : ScanOutcome) (d : Nat) (st : ScanState) : ScanState :=
  { st with
    events := st.events ++ ScanEvent.RequestCompleted :: oc.events,
    found := st.found ++ oc.events.filterMap (fun e =>
      match e with
      | ScanEvent.FoundUrl s => some (s, d + 1)
      | _ => none) }

/-- lib.rs 382-398: handle `perform_scan`'s result inside the task, under
the visited-set and queue locks: a recursion candidate is inserted into
the visited set unconditionally; only when the insertion is fresh AND
`current_depth < max_depth` is it pushed onto the queue.  Errors only log
to stderr (the events were already sent by `perform_scan`). -/
def recordOutcome (maxd d : Nat) (r : Except ScanError (Option Url)) (st : ScanState) :
    ScanState :=
  match r with
  | Except.ok (some foundUrl) =>
    if foundUrl ∈ st.visited then st
    else
      let st2 := { st with visited := st.visited ++ [foundUrl] }
      if d < maxd then
        { st2 with
          queue := st2.queue ++ [(foundUrl, d + 1)],
          pushed := st2.pushed ++ [(foundUrl, d + 1)] }
      else st2
  | _ => st

/-- lib.rs 347-400: one spawned worker task, run to completion: the
progress event, the `perform_scan` call, and the visited/queue update. -/
def runTask (cfg : ScanConfig) (net : Network) (it : Url × Nat) (w : String)
    (st : ScanState) : ScanState :=
  let oc := performScan net it.1 w cfg.method cfg.filters cfg.mode cfg.headers cfg.data
  recordOutcome cfg.max_depth it.2 oc.result (appendTaskEvents oc it.2 st)

/-- lib.rs 325-401: a dequeued work item fans out into one task per
wordlist entry (modelled as running in spawn order). -/
def runItem (cfg : ScanConfig) (net : Network) (it : Url × Nat) (st : ScanState) :
    ScanState :=
  cfg.words.foldl (fun s w => runTask cfg net it w s) st

/-- lib.rs 300-402: the drain loop.  Pop a work item; with the queue empty
and no in-flight tasks (always the case here, tasks having run to
completion) the loop breaks; a popped item with `max_depth > 0 &&
current_depth >= max_depth` is skipped without expansion (line 321);
otherwise it fans out over the wordlist.  The `fuel` argument bounds the
number of iterations; every claim proved about the loop holds for every
fuel value, hence for the full run. -/
def drainLoop (cfg : ScanConfig) (net : Network) : Nat → ScanState → ScanState
  | 0, st => st
  | fuel + 1, st =>
    match st.queue with
    | [] => st
    | it :: rest =>
      if cfg.max_depth > 0 ∧ it.2 ≥ cfg.max_depth then
        drainLoop cfg net fuel { st with queue := rest }
      else
        drainLoop cfg net fuel (runItem cfg net it { st with queue := rest })

/-- lib.rs 266-415: one run of `start_scan` over the shared visited set
`visited0` handed in by the caller.  The initial (base, 0) push of line
298 does not consult or seed the visited set.  The final state after the
pool drains. -/
def startScan (cfg : ScanConfig) (net : Network) (base : Url) (visited0 : List Url)
    ( _ctrl : List ControlEvent) (fuel : Nat) : ScanState :=
  drainLoop cfg net fuel
    { queue := [(base, 0)], visited := visited0, events := [], pushed := [], found := [] }

/-- lib.rs 266-415 (event part): the full trace one run of `start_scan`
sends on the event channel: `ScanStarted` (line 295) before the initial
push, every worker event, then `ScanFinished` (line 410).  The control
receiver `_ctrl_rx` (line 272) is never read by the implementation, so
the control input is ignored here in the same way. -/
def scanTrace (cfg : ScanConfig) (net : Network) (base : Url) (visited0 : List Url)
    (ctrl : List ControlEvent) (fuel : Nat) : List ScanEvent :=
  ScanEvent.ScanStarted cfg.words.length ::
    (startScan cfg net base visited0 ctrl fuel).events ++ [ScanEvent.ScanFinished]

/-- main.rs 387-437: the orchestrator loop over base URLs runs the scans
sequentially; each iteration creates a fresh, empty visited set
(`Arc::new(Mutex::new(HashSet::new()))`, main.rs 407) and runs
`start_scan` with it; nothing is carried from one iteration to the next
and the set is not seeded with any base URL.  (The `tokio::select!` that
cancels the loop on Stop is outside the model; this is the run without a
Stop signal.) -/
def runMain (cfg : ScanConfig) (net : Network) (bases : List Url) (fuel : Nat) :
    List ScanState :=
  bases.map (fun b => startScan cfg net b [] [] fuel)

/-- Every discovered-URL enqueue operation of a whole program run, in
order. -/
def runPushed (cfg : ScanConfig) (net : Network) (bases : List Url) (fuel : Nat) :
    List (Url × Nat) :=
  ((runMain cfg net bases fuel).map ScanState.pushed).flatten

/-- Events a worker task can send (lib.rs 152-245 and line 358). -/
def isWorkerEvent : ScanEvent → Bool
  | ScanEvent.FoundUrl _ => true
  | ScanEvent.RequestCompleted => true
  | ScanEvent.ErrorOccurred _ => true
  | ScanEvent.Warning _ => true
  | _ => false

/-- Recogniser for `ScanStarted` events. -/
def isScanStartedEvent : ScanEvent → Bool
  | ScanEvent.ScanStarted _ => true
  | _ => false

/-! ## Worker-pool semaphore (lib.rs 289, 347-355)

The pool is abstracted to how many tasks are pending, in flight (holding
a semaphore permit — acquired at line 348 before the request is issued,
released when the task body of lines 347-400 returns), and finished.  The
`acquire` step can fire only when fewer than `c` permits are out: that is
the semantics of `Semaphore::new(concurrency)`.  The step relation leaves
the schedule completely free, so the invariant below covers every
interleaving. -/

structure PoolState where
  pending : Nat
  inFlight : Nat
  finished : Nat
deriving DecidableEq

/-- One scheduler step of the pool: a pending task acquires a permit
(possible only when permits remain), or an in-flight task completes and
releases its permit. -/
inductive PoolStep (c : Nat) : PoolState → PoolState → Prop
  | acquire (s : PoolState) (hp : 0 < s.pending) (hc : s.inFlight < c) :
      PoolStep c s { pending := s.pending - 1, inFlight := s.inFlight + 1,
                     finished := s.finished }
  | finish (s : PoolState) (hf : 0 < s.inFlight) :
      PoolStep c s { pending := s.pending, inFlight := s.inFlight - 1,
                     finished := s.finished + 1 }

/-- Pool states reachable from `n` spawned tasks, none yet started. -/
def PoolReachable (c n : Nat) (s : PoolState) : Prop :=
  Relation.ReflTransGen (PoolStep c)
    { pending := n, inFlight := 0, finished := 0 } s

/-! ## Concrete fixtures for witnesses and counterexamples -/

/-- The base URL http://h/ . -/
def urlRoot : Url := ⟨"http", "h", "/", []⟩

/-- The URL http://h/a/ discovered from `urlRoot` with the word "a/". -/
def urlA : Url := ⟨"http", "h", "/a/", []⟩

/-- A server answering 200 with an empty body to every request. -/
def ok200 : Network := fun _ => Except.ok ⟨200, none, ""⟩

/-- A transport that always fails. -/
def failNet : Network := fun _ => Except.error "connection refused"

/-- GET scan, wordlist ["a/"], Path mode, no filters, max_depth 1. -/
def cfgBase : ScanConfig :=
  ⟨["a/"], HttpMethod.GET, noFilters, 1, FuzzMode.Path, [], none⟩

/-- Same scan with max_depth 0. -/
def cfgDepth0 : ScanConfig :=
  ⟨["a/"], HttpMethod.GET, noFilters, 0, FuzzMode.Path, [], none⟩

/-- The request `cfgBase` builds for (urlRoot, "a/"). -/
def reqA : HttpRequest := ⟨HttpMethod.GET, urlA, [], none⟩

/-- The empty-body 200 response. -/
def res200 : HttpResponse := ⟨200, none, ""⟩

/-- The empty-body 404 response. -/
def res404 : HttpResponse := ⟨404, none, ""⟩

/-- http://h/?id=FUZZ — a base URL for Parameter mode. -/
def urlQ : Url := ⟨"http", "h", "/", [("id", "FUZZ")]⟩

/-- http://h/?id=1 — a base URL whose query carries no FUZZ marker. -/
def urlQ1 : Url := ⟨"http", "h", "/", [("id", "1")]⟩

/-- The empty scan state. -/
def stEmpty : ScanState := ⟨[], [], [], [], []⟩

/-- A state that has already visited urlA and has it queued at depth 1. -/
def stSeen : ScanState := ⟨[(urlA, 1)], [urlA], [], [], []⟩

/-! ## Helper lemmas -/

/-- `perform_scan` with a failing templater sends nothing and returns the
error. -/
theorem performScan_templateErr (net : Network) (base : Url) (w : String)
    (method : HttpMethod) (f : Filters) (mode : FuzzMode) (headers : List String)
    (data : Option String) (e : ScanError)
    (hreq : scanRequest base w method mode headers data = Except.error e) :
    performScan net base w method f mode headers data =
      { events := [], result := Except.error e } := by
  unfold performScan
  rw [hreq]

/-- `perform_scan` on a transport failure: one ErrorOccurred, the
transport error as result. -/
theorem performScan_transport (net : Network) (base : Url) (w : String)
    (method : HttpMethod) (f : Filters) (mode : FuzzMode) (headers : List String)
    (data : Option String) (req : HttpRequest) (msg : String)
    (hreq : scanRequest base w method mode headers data = Except.ok req)
    (hnet : net req = Except.error msg) :
    performScan net base w method f mode headers data =
      { events := [ScanEvent.ErrorOccurred msg],
        result := Except.error (ScanError.transport msg) } := by
  simp only [performScan, hreq, hnet]

/-- `perform_scan` on an arrived response defers to `evalResponse`. -/
theorem performScan_response (net : Network) (base : Url) (w : String)
    (method : HttpMethod) (f : Filters) (mode : FuzzMode) (headers : List String)
    (data : Option String) (req : HttpRequest) (res : HttpResponse)
    (hreq : scanRequest base w method mode headers data = Except.ok req)
    (hnet : net req = Except.ok res) :
    performScan net base w method f mode headers data =
      { events := (evalResponse f req.url res).1,
        result := Except.ok (evalResponse f req.url res).2 } := by
  simp only [performScan, hreq, hnet]

/-- A dropped response: only the RequestCompleted, no candidate. -/
theorem evalResponse_drop (f : Filters) (t : Url) (res : HttpResponse)
    (h : responsePasses f res = false) :
    evalResponse f t res = ([ScanEvent.RequestCompleted], none) := by
  unfold evalResponse
  by_cases h1 : statusPass f res.status = false
  · rw [if_pos h1]
  · have h2 : metricsPass f (bodyMetrics res.status res.body).1
        (bodyMetrics res.status res.body).2.1 (bodyMetrics res.status res.body).2.2 = false := by
      unfold responsePasses at h
      rcases hs : statusPass f res.status with _ | _
      · exact absurd hs h1
      · simpa [hs] using h
    rw [if_neg h1, if_pos h2]

/-- A passing response: RequestCompleted then the FoundUrl line, and the
recursion candidate of lib.rs 249-263. -/
theorem evalResponse_pass (f : Filters) (t : Url) (res : HttpResponse)
    (h : responsePasses f res = true) :
    evalResponse f t res =
      ([ScanEvent.RequestCompleted, ScanEvent.FoundUrl (foundLine t res)],
       if isSuccess res.status then some (ensurePathSlash t)
       else if isRedirection res.status then some t
       else none) := by
  unfold responsePasses at h
  simp only [Bool.and_eq_true] at h
  obtain ⟨h1, h2⟩ := h
  unfold evalResponse
  rw [if_neg (by simp [h1]), if_neg (by simp [h2])]

/-- Everything `perform_scan` sends is a worker event. -/
theorem performScan_events_worker (net : Network) (base : Url) (w : String)
    (method : HttpMethod) (f : Filters) (mode : FuzzMode) (headers : List String)
    (data : Option String) :
    ∀ e ∈ (performScan net base w method f mode headers data).events,
      isWorkerEvent e = true := by
  rcases hreq : scanRequest base w method mode headers data with e | req
  · rw [performScan_templateErr net base w method f mode headers data e hreq]
    simp
  · rcases hnet : net req with msg | res
    · rw [performScan_transport net base w method f mode headers data req msg hreq hnet]
      simp [isWorkerEvent]
    · rw [performScan_response net base w method f mode headers data req res hreq hnet]
      rcases hp : responsePasses f res with _ | _
      · rw [evalResponse_drop f req.url res hp]
        simp [isWorkerEvent]
      · rw [evalResponse_pass f req.url res hp]
        simp [isWorkerEvent]

/-- lib.rs 100-105: a prefix of pairs without the marker is skipped and the
first pair whose value holds "FUZZ" is rewritten in place. -/
theorem fuzzQueryPairs_first (w k v : String) (r : List (String × String)) :
    ∀ l, (∀ p ∈ l, strContains p.2 "FUZZ" = false) → strContains v "FUZZ" = true →
      fuzzQueryPairs w (l ++ (k, v) :: r) = some (l ++ (k, strReplace v "FUZZ" w) :: r)
  | [], _, hv => by simp [fuzzQueryPairs, hv]
  | (k0, v0) :: l, hl, hv => by
    have h0 : strContains v0 "FUZZ" = false := hl (k0, v0) (List.mem_cons_self _ _)
    have ih := fuzzQueryPairs_first w k v r l
      (fun p hp => hl p (List.mem_cons_of_mem _ hp)) hv
    simp [fuzzQueryPairs, h0, ih]

/-- lib.rs 107-111: when no query value holds the marker, the walk finds
nothing. -/
theorem fuzzQueryPairs_none (w : String) :
    ∀ qs, (∀ p ∈ qs, strContains p.2 "FUZZ" = false) → fuzzQueryPairs w qs = none
  | [], _ => rfl
  | (k0, v0) :: qs, hl => by
    have h0 : strContains v0 "FUZZ" = false := hl (k0, v0) (List.mem_cons_self _ _)
    have ih := fuzzQueryPairs_none w qs (fun p hp => hl p (List.mem_cons_of_mem _ hp))
    simp [fuzzQueryPairs, h0, ih]

/-- Exhaustive description of the visited/queue update of lib.rs 382-391:
either the state is untouched, or a fresh candidate is appended to the
visited set — and to the queue and push history exactly when the item
depth is below max_depth. -/
theorem recordOutcome_cases (maxd d : Nat) (r : Except ScanError (Option Url))
    (st : ScanState) :
    recordOutcome maxd d r st = st ∨
    ∃ u, r = Except.ok (some u) ∧ u ∉ st.visited ∧
      ((maxd ≤ d ∧ recordOutcome maxd d r st = { st with visited := st.visited ++ [u] }) ∨
       (d < maxd ∧ recordOutcome maxd d r st =
          { st with visited := st.visited ++ [u],
                    queue := st.queue ++ [(u, d + 1)],
                    pushed := st.pushed ++ [(u, d + 1)] })) := by
  rcases r with e | o
  · exact Or.inl rfl
  · rcases o with _ | u
    · exact Or.inl rfl
    · by_cases hmem : u ∈ st.visited
      · exact Or.inl (by simp [recordOutcome, hmem])
      · by_cases hd : d < maxd
        · exact Or.inr ⟨u, rfl, hmem, Or.inr ⟨hd, by simp [recordOutcome, hmem, hd]⟩⟩
        · exact Or.inr ⟨u, rfl, hmem,
            Or.inl ⟨by omega, by simp [recordOutcome, hmem, hd]⟩⟩

/-- The visited/queue update never touches the events. -/
theorem recordOutcome_events (maxd d : Nat) (r : Except ScanError (Option Url))
    (st : ScanState) : (recordOutcome maxd d r st).events = st.events := by
  rcases recordOutcome_cases maxd d r st with h | ⟨u, -, -, ⟨-, h⟩ | ⟨-, h⟩⟩ <;> rw [h]

/-- The visited/queue update never touches the found audit. -/
theorem recordOutcome_found (maxd d : Nat) (r : Except ScanError (Option Url))
    (st : ScanState) : (recordOutcome maxd d r st).found = st.found := by
  rcases recordOutcome_cases maxd d r st with h | ⟨u, -, -, ⟨-, h⟩ | ⟨-, h⟩⟩ <;> rw [h]

/-- The visited set only grows. -/
theorem recordOutcome_visited_mono (maxd d : Nat) (r : Except ScanError (Option Url))
    (st : ScanState) : ∀ u ∈ st.visited, u ∈ (recordOutcome maxd d r st).visited := by
  rcases recordOutcome_cases maxd d r st with h | ⟨u, -, -, ⟨-, h⟩ | ⟨-, h⟩⟩ <;> rw [h] <;>
    intro x hx <;> simp [hx]

/-- Unfolding the drain loop on an empty queue. -/
theorem drainLoop_nil (cfg : ScanConfig) (net : Network) (n : Nat) (st : ScanState)
    (hq : st.queue = []) : drainLoop cfg net (n + 1) st = st := by
  rw [drainLoop, hq]

/-- Unfolding the drain loop on a popped work item. -/
theorem drainLoop_cons (cfg : ScanConfig) (net : Network) (n : Nat) (st : ScanState)
    (it : Url × Nat) (rest : List (Url × Nat)) (hq : st.queue = it :: rest) :
    drainLoop cfg net (n + 1) st =
      if cfg.max_depth > 0 ∧ it.2 ≥ cfg.max_depth then
        drainLoop cfg net n { st with queue := rest }
      else
        drainLoop cfg net n (runItem cfg net it { st with queue := rest }) := by
  rw [drainLoop, hq]

/-- An invariant preserved by every task (given the popped item satisfies
`Q` and passed the depth guard of lib.rs 321) and by popping holds of the
whole drain loop, for every fuel. -/
theorem foldl_runTask_invariant (cfg : ScanConfig) (net : Network) (it : Url × Nat)
    (P : ScanState → Prop)
    (hstep : ∀ w st, P st → P (runTask cfg net it w st)) :
    ∀ (ws : List String) (st : ScanState), P st →
      P (ws.foldl (fun s w => runTask cfg net it w s) st)
  | [], _, h => h
  | w :: ws, st, h =>
    foldl_runTask_invariant cfg net it P hstep ws (runTask cfg net it w st) (hstep w st h)

theorem drainLoop_invariant (cfg : ScanConfig) (net : Network)
    (P : ScanState → Prop) (Q : Url × Nat → Prop)
    (hQ : ∀ st, P st → ∀ it ∈ st.queue, Q it)
    (hpop : ∀ st it rest, st.queue = it :: rest → P st → P { st with queue := rest })
    (hstep : ∀ it w st, Q it → cfg.max_depth = 0 ∨ it.2 < cfg.max_depth → P st →
      P (runTask cfg net it w st)) :
    ∀ fuel st, P st → P (drainLoop cfg net fuel st) := by
  intro fuel
  induction fuel with
  | zero => intro st h; exact h
  | succ n ih =>
    intro st h
    rcases hq : st.queue with _ | ⟨it, rest⟩
    · rw [drainLoop_nil cfg net n st hq]; exact h
    · have hQit : Q it := hQ st h it (by rw [hq]; exact List.mem_cons_self _ _)
      have hpopped : P { st with queue := rest } := hpop st it rest hq h
      rw [drainLoop_cons cfg net n st it rest hq]
      by_cases hg : cfg.max_depth > 0 ∧ it.2 ≥ cfg.max_depth
      · rw [if_pos hg]; exact ih _ hpopped
      · have hcond : cfg.max_depth = 0 ∨ it.2 < cfg.max_depth := by omega
        rw [if_neg hg]
        exact ih _ (foldl_runTask_invariant cfg net it P
          (fun w s hs => hstep it w s hQit hcond hs) cfg.words _ hpopped)

/-- A recursion candidate is in the visited set after the update of
lib.rs 382-391, whatever the depth. -/
theorem recordOutcome_mem_of_ok (maxd d : Nat) (u : Url) (st : ScanState) :
    u ∈ (recordOutcome maxd d (Except.ok (some u)) st).visited := by
  by_cases hmem : u ∈ st.visited
  · simp [recordOutcome, hmem]
  · by_cases hd : d < maxd <;> simp [recordOutcome, hmem, hd]

/-- At or beyond the depth limit the update touches neither the queue nor
the push history. -/
theorem recordOutcome_deep (maxd d : Nat) (r : Except ScanError (Option Url))
    (st : ScanState) (hd : maxd ≤ d) :
    (recordOutcome maxd d r st).queue = st.queue ∧
    (recordOutcome maxd d r st).pushed = st.pushed := by
  rcases recordOutcome_cases maxd d r st with h | ⟨u, -, -, ⟨-, h⟩ | ⟨hlt, h⟩⟩
  · rw [h]; exact ⟨rfl, rfl⟩
  · rw [h]; exact ⟨rfl, rfl⟩
  · omega

/-- Exhaustive description of one task's effect on queue, visited set and
push history. -/
theorem runTask_state_cases (cfg : ScanConfig) (net : Network) (it : Url × Nat)
    (w : String) (st : ScanState) :
    ((runTask cfg net it w st).pushed = st.pushed ∧
     (runTask cfg net it w st).queue = st.queue ∧
     ((runTask cfg net it w st).visited = st.visited ∨
      ∃ u, u ∉ st.visited ∧ (runTask cfg net it w st).visited = st.visited ++ [u])) ∨
    ∃ u, u ∉ st.visited ∧ it.2 < cfg.max_depth ∧
      (runTask cfg net it w st).pushed = st.pushed ++ [(u, it.2 + 1)] ∧
      (runTask cfg net it w st).queue = st.queue ++ [(u, it.2 + 1)] ∧
      (runTask cfg net it w st).visited = st.visited ++ [u] := by
  unfold runTask
  rcases recordOutcome_cases cfg.max_depth it.2
      (performScan net it.1 w cfg.method cfg.filters cfg.mode cfg.headers cfg.data).result
      (appendTaskEvents
        (performScan net it.1 w cfg.method cfg.filters cfg.mode cfg.headers cfg.data) it.2 st)
      with h | ⟨u, -, hmem, ⟨-, h⟩ | ⟨hlt, h⟩⟩
  · exact Or.inl ⟨by rw [h]; rfl, by rw [h]; rfl, Or.inl (by rw [h]; rfl)⟩
  · exact Or.inl ⟨by rw [h]; rfl, by rw [h]; rfl, Or.inr ⟨u, hmem, by rw [h]; rfl⟩⟩
  · exact Or.inr ⟨u, hmem, hlt, by rw [h]; rfl, by rw [h]; rfl, by rw [h]; rfl⟩

/-- The visited set only grows across a task. -/
theorem runTask_visited_mono (cfg : ScanConfig) (net : Network) (it : Url × Nat)
    (w : String) (st : ScanState) :
    ∀ u ∈ st.visited, u ∈ (runTask cfg net it w st).visited := by
  intro u hu
  rcases runTask_state_cases cfg net it w st with ⟨-, -, hv | ⟨v, -, hv⟩⟩ | ⟨v, -, -, -, -, hv⟩ <;>
    rw [hv] <;> simp [hu]

/-- Every event a task appends is a worker event. -/
theorem runTask_events_mem (cfg : ScanConfig) (net : Network) (it : Url × Nat)
    (w : String) (st : ScanState) :
    ∀ e ∈ (runTask cfg net it w st).events, e ∈ st.events ∨ isWorkerEvent e = true := by
  intro e he
  unfold runTask at he
  rw [recordOutcome_events] at he
  simp only [appendTaskEvents] at he
  rcases List.mem_append.mp he with h1 | h2
  · exact Or.inl h1
  · rcases List.mem_cons.mp h2 with rfl | h3
    · exact Or.inr rfl
    · exact Or.inr (performScan_events_worker net it.1 w cfg.method cfg.filters cfg.mode
        cfg.headers cfg.data e h3)

/-- Every found-audit entry a task appends carries expansion count
`depth + 1`. -/
theorem runTask_found_mem (cfg : ScanConfig) (net : Network) (it : Url × Nat)
    (w : String) (st : ScanState) :
    ∀ p ∈ (runTask cfg net it w st).found, p ∈ st.found ∨ p.2 = it.2 + 1 := by
  intro p hp
  unfold runTask at hp
  rw [recordOutcome_found] at hp
  simp only [appendTaskEvents] at hp
  rcases List.mem_append.mp hp with h1 | h2
  · exact Or.inl h1
  · right
    rcases List.mem_filterMap.mp h2 with ⟨e, -, hge⟩
    cases e <;> simp at hge
    rw [← hge]

/-- Worker events are not lifecycle events. -/
theorem worker_not_lifecycle (e : ScanEvent) (h : isWorkerEvent e = true) :
    isScanStartedEvent e = false ∧ e ≠ ScanEvent.ScanFinished ∧ e ≠ ScanEvent.ScanStopped := by
  cases e <;> simp [isWorkerEvent, isScanStartedEvent] at h ⊢

/-! ## Claim theorems -/

/-- C7: for every call to perform_scan with method POST and a body
template provided, the word is substituted for FUZZ in the body template
and the request is sent to the base URL unchanged — path-mode (and any
other fuzz-mode) URL substitution is suppressed (lib.rs 75-77, 130-135). -/
theorem c7_post_body_targets_body (base : Url) (w : String) (mode : FuzzMode)
    (headers : List String) (t : String) :
    scanRequest base w HttpMethod.POST mode headers (some t) =
      Except.ok { method := HttpMethod.POST, url := base,
                  headers := buildHeaders w headers,
                  body := some (strReplace t "FUZZ" w) } := by
  unfold scanRequest templateUrl
  rw [if_pos ⟨rfl, rfl⟩]
  rfl

/-- C8: in Parameter fuzz mode (outside the POST-with-body case, where URL
templating is suppressed), perform_scan iterates the base URL's query
pairs in order and replaces the FUZZ marker in the value of the first
pair whose value contains it, leaving all other pairs unchanged; if no
query value contains FUZZ it fails with the marker-missing error and
sends no request: the outcome is empty of events and the transport (any
`net`) is never consulted (lib.rs 94-116). -/
theorem c8_parameter_first_marker (net : Network) (base : Url) (w : String)
    (method : HttpMethod) (f : Filters) (headers : List String) (data : Option String)
    (hm : ¬(method = HttpMethod.POST ∧ data.isSome = true)) :
    (∀ l k v r, base.query = l ++ (k, v) :: r →
        (∀ p ∈ l, strContains p.2 "FUZZ" = false) →
        strContains v "FUZZ" = true →
        templateUrl method data FuzzMode.Parameter base w =
          Except.ok { base with query := l ++ (k, strReplace v "FUZZ" w) :: r }) ∧
    ((∀ p ∈ base.query, strContains p.2 "FUZZ" = false) →
        templateUrl method data FuzzMode.Parameter base w =
            Except.error ScanError.markerMissing ∧
        performScan net base w method f FuzzMode.Parameter headers data =
          { events := [], result := Except.error ScanError.markerMissing }) := by
  constructor
  · intro l k v r hsplit hl hv
    have hf : fuzzQueryPairs w base.query = some (l ++ (k, strReplace v "FUZZ" w) :: r) := by
      rw [hsplit]; exact fuzzQueryPairs_first w k v r l hl hv
    unfold templateUrl
    rw [if_neg hm]
    simp only [hf]
  · intro hnone
    have hf : fuzzQueryPairs w base.query = none := fuzzQueryPairs_none w base.query hnone
    have htu : templateUrl method data FuzzMode.Parameter base w =
        Except.error ScanError.markerMissing := by
      unfold templateUrl
      rw [if_neg hm]
      simp only [hf]
    refine ⟨htu, ?_⟩
    have hsr : scanRequest base w method FuzzMode.Parameter headers data =
        Except.error ScanError.markerMissing := by
      unfold scanRequest
      rw [htu]
    exact performScan_templateErr net base w method f FuzzMode.Parameter headers data
      ScanError.markerMissing hsr

/-- C4: for every arrived response, perform_scan emits FoundUrl iff the
response passes the status rule and every present body-metric rule
(`responsePasses`, built from `statusPass` — include whitelist takes
precedence, else exclude blacklist, else the implicit 404 exclusion — and
`metricsPass` — each present exact list must contain the count and each
present exclude list must not); a recursion candidate is only ever
returned for a passing response (lib.rs 180-245). -/
theorem c4_filter_pipeline (net : Network) (base : Url) (w : String)
    (method : HttpMethod) (f : Filters) (mode : FuzzMode) (headers : List String)
    (data : Option String) (req : HttpRequest) (res : HttpResponse)
    (hreq : scanRequest base w method mode headers data = Except.ok req)
    (hnet : net req = Except.ok res) :
    ((∃ s, ScanEvent.FoundUrl s ∈ (performScan net base w method f mode headers data).events)
        ↔ responsePasses f res = true) ∧
    (∀ u, (performScan net base w method f mode headers data).result = Except.ok (some u) →
        responsePasses f res = true) := by
  rw [performScan_response net base w method f mode headers data req res hreq hnet]
  rcases hp : responsePasses f res with _ | _
  · rw [evalResponse_drop f req.url res hp]
    constructor
    · simp
    · simp
  · rw [evalResponse_pass f req.url res hp]
    constructor
    · simp
    · simp

/-- C6: for every response that passes all filters, the recursion signal
is: 2xx status — the target URL with a trailing '/' ensured on its path;
3xx status — the target URL unchanged; any other status — none
(lib.rs 249-263). -/
theorem c6_recursion_signal (net : Network) (base : Url) (w : String)
    (method : HttpMethod) (f : Filters) (mode : FuzzMode) (headers : List String)
    (data : Option String) (req : HttpRequest) (res : HttpResponse)
    (hreq : scanRequest base w method mode headers data = Except.ok req)
    (hnet : net req = Except.ok res)
    (hpass : responsePasses f res = true) :
    (isSuccess res.status = true →
      (performScan net base w method f mode headers data).result =
        Except.ok (some (ensurePathSlash req.url)) ∧
      (ensurePathSlash req.url).path =
        (if strEndsWith req.url.path "/" then req.url.path else req.url.path ++ "/")) ∧
    (isRedirection res.status = true →
      (performScan net base w method f mode headers data).result =
        Except.ok (some req.url)) ∧
    (isSuccess res.status = false → isRedirection res.status = false →
      (performScan net base w method f mode headers data).result = Except.ok none) := by
  rw [performScan_response net base w method f mode headers data req res hreq hnet,
    evalResponse_pass f req.url res hpass]
  refine ⟨?_, ?_, ?_⟩
  · intro hs
    refine ⟨by simp [hs], ?_⟩
    unfold ensurePathSlash
    by_cases he : strEndsWith req.url.path "/"
    · rw [if_pos he, if_pos he]
    · rw [if_neg he, if_neg he]
  · intro hr
    have h3 : 300 ≤ res.status := by
      have h := hr
      simp only [isRedirection, Bool.and_eq_true, decide_eq_true_eq] at h
      exact h.1
    have hs : isSuccess res.status = false := by
      unfold isSuccess
      have hlt : decide (res.status < 300) = false := by
        simp only [decide_eq_false_iff_not]
        omega
      simp [hlt]
    simp [hs, hr]
  · intro hs hr
    simp [hs, hr]

/-- C1 (amended): per request, perform_scan itself emits no
RequestCompleted on transport failure (only one ErrorOccurred), and
exactly one RequestCompleted per arrived response, followed by at most
one FoundUrl; but each task spawned by start_scan sends one additional
RequestCompleted progress event (lib.rs 358) before the request, so
counting all events on the task's channel a transport-failing task sends
[RequestCompleted, ErrorOccurred] and a responding task sends exactly two
RequestCompleted. -/
theorem c1_task_event_protocol (cfg : ScanConfig) (net : Network) (u : Url) (w : String)
    (req : HttpRequest)
    (hreq : scanRequest u w cfg.method cfg.mode cfg.headers cfg.data = Except.ok req) :
    (∀ msg, net req = Except.error msg →
      (performScan net u w cfg.method cfg.filters cfg.mode cfg.headers cfg.data).events =
        [ScanEvent.ErrorOccurred msg] ∧
      taskEvents cfg net u w =
        [ScanEvent.RequestCompleted, ScanEvent.ErrorOccurred msg]) ∧
    (∀ res, net req = Except.ok res →
      ∃ t, (performScan net u w cfg.method cfg.filters cfg.mode cfg.headers cfg.data).events =
          ScanEvent.RequestCompleted :: t ∧
        (t = [] ∨ ∃ s, t = [ScanEvent.FoundUrl s]) ∧
        (performScan net u w cfg.method cfg.filters cfg.mode cfg.headers cfg.data).events.count
          ScanEvent.RequestCompleted = 1 ∧
        taskEvents cfg net u w =
          ScanEvent.RequestCompleted :: ScanEvent.RequestCompleted :: t) := by
  constructor
  · intro msg hnet
    unfold taskEvents
    rw [performScan_transport net u w cfg.method cfg.filters cfg.mode cfg.headers
      cfg.data req msg hreq hnet]
    exact ⟨rfl, rfl⟩
  · intro res hnet
    unfold taskEvents
    rw [performScan_response net u w cfg.method cfg.filters cfg.mode cfg.headers
      cfg.data req res hreq hnet]
    rcases hp : responsePasses cfg.filters res with _ | _
    · rw [evalResponse_drop cfg.filters req.url res hp]
      exact ⟨[], rfl, Or.inl rfl, by simp, rfl⟩
    · rw [evalResponse_pass cfg.filters req.url res hp]
      refine ⟨[ScanEvent.FoundUrl (foundLine req.url res)], rfl, Or.inr ⟨_, rfl⟩, ?_, rfl⟩
      simp [List.count_cons]

/-- C9: for a pool of `n` spawned tasks and a semaphore of `c ≥ 1`
permits, every reachable pool state — under any schedule of acquisitions
and completions — has at most `c` tasks in flight; requests are issued
only while a permit is held (acquired at lib.rs 348, released when the
task returns), so at most `c` HTTP requests are simultaneously in flight. -/
theorem c9_concurrency_bound (c n : Nat) (s : PoolState) ( _hc : 1 ≤ c)
    (h : PoolReachable c n s) : s.inFlight ≤ c := by
  induction h with
  | refl => exact Nat.zero_le c
  | tail hab hbc ih =>
    cases hbc with
    | acquire hp hcc => exact hcc
    | finish hf => exact Nat.le_trans (Nat.sub_le _ _) ih

/-- C3 (amended): every complete run of start_scan emits exactly one
ScanStarted, before any worker event, and exactly one ScanFinished, as
its last event; because `_ctrl_rx` is never read, ScanStopped is never
emitted and a Stop control event never replaces ScanFinished with
ScanStopped (lib.rs 272, 295, 404-410). -/
theorem c3_scan_lifecycle (cfg : ScanConfig) (net : Network) (base : Url)
    (visited0 : List Url) (ctrl : List ControlEvent) (fuel : Nat) :
    (scanTrace cfg net base visited0 ctrl fuel).head? =
        some (ScanEvent.ScanStarted cfg.words.length) ∧
    (scanTrace cfg net base visited0 ctrl fuel).countP isScanStartedEvent = 1 ∧
    (scanTrace cfg net base visited0 ctrl fuel).count ScanEvent.ScanFinished = 1 ∧
    (scanTrace cfg net base visited0 ctrl fuel).getLast? = some ScanEvent.ScanFinished ∧
    (scanTrace cfg net base visited0 ctrl fuel).count ScanEvent.ScanStopped = 0 := by
  have hworker : ∀ e ∈ (startScan cfg net base visited0 ctrl fuel).events,
      isWorkerEvent e = true := by
    refine drainLoop_invariant cfg net
      (fun st => ∀ e ∈ st.events, isWorkerEvent e = true) (fun _ => True)
      (fun _ _ _ _ => trivial) (fun st it rest hq h => h) ?_ fuel _ ?_
    · intro it w st _ _ h e he
      rcases runTask_events_mem cfg net it w st e he with h1 | h2
      · exact h e h1
      · exact h2
    · intro e he
      exact absurd he (List.not_mem_nil e)
  have hstart0 : (startScan cfg net base visited0 ctrl fuel).events.countP
      isScanStartedEvent = 0 :=
    List.countP_eq_zero.mpr (fun e he => by
      rw [(worker_not_lifecycle e (hworker e he)).1]
      exact Bool.false_ne_true)
  have hfin : ScanEvent.ScanFinished ∉ (startScan cfg net base visited0 ctrl fuel).events :=
    fun hmem => (worker_not_lifecycle _ (hworker _ hmem)).2.1 rfl
  have hstop : ScanEvent.ScanStopped ∉ (startScan cfg net base visited0 ctrl fuel).events :=
    fun hmem => (worker_not_lifecycle _ (hworker _ hmem)).2.2 rfl
  refine ⟨rfl, ?_, ?_, ?_, ?_⟩
  · simp [scanTrace, List.countP_cons, List.countP_append, hstart0, isScanStartedEvent]
  · simp [scanTrace, List.count_cons, List.count_append, List.count_eq_zero.mpr hfin]
  · show (ScanEvent.ScanStarted cfg.words.length ::
        ((startScan cfg net base visited0 ctrl fuel).events ++ [ScanEvent.ScanFinished])).getLast?
      = some ScanEvent.ScanFinished
    rw [← List.cons_append, List.getLast?_concat]
  · simp [scanTrace, List.count_cons, List.count_append, List.count_eq_zero.mpr hstop]

/-- C2 (amended): main's per-URL loop hands every start_scan invocation a
fresh, empty visited set (main.rs 407) — nothing is shared across
invocations and no base URL seeds the set; within a single invocation
every discovered URL is enqueued as a work base at most once (the
atomic insert of lib.rs 384 guards the push).  The `runMain` equation is
definitional and records the per-invocation freshness; the Nodup fact is
the once-per-invocation bound. -/
theorem c2_per_invocation_dedup (cfg : ScanConfig) (net : Network) (bases : List Url)
    (base : Url) (visited0 : List Url) (ctrl : List ControlEvent) (fuel : Nat) :
    runMain cfg net bases fuel = bases.map (fun b => startScan cfg net b [] [] fuel) ∧
    ((startScan cfg net base visited0 ctrl fuel).pushed.map Prod.fst).Nodup := by
  refine ⟨rfl, ?_⟩
  have h := drainLoop_invariant cfg net
    (fun st => (st.pushed.map Prod.fst).Nodup ∧
      ∀ u ∈ st.pushed.map Prod.fst, u ∈ st.visited) (fun _ => True)
    (fun _ _ _ _ => trivial) (fun st it rest hq hp => hp) ?_ fuel
    { queue := [(base, 0)], visited := visited0, events := [], pushed := [], found := [] } ?_
  · exact h.1
  · intro it w st _ _ hp
    obtain ⟨hnd, hsub⟩ := hp
    rcases runTask_state_cases cfg net it w st with
      ⟨hpu, -, hv | ⟨v, -, hv⟩⟩ | ⟨v, hvm, -, hpu, -, hv⟩
    · rw [hpu, hv]; exact ⟨hnd, hsub⟩
    · rw [hpu, hv]
      exact ⟨hnd, fun u hu => List.mem_append_left _ (hsub u hu)⟩
    · rw [hpu, hv]
      constructor
      · rw [List.map_append]
        rw [List.nodup_append]
        refine ⟨hnd, List.nodup_singleton v, ?_⟩
        intro a ha hb
        simp only [List.map_cons, List.map_nil, List.mem_singleton] at hb
        subst hb
        exact hvm (hsub a ha)
      · intro u hu
        rw [List.map_append] at hu
        rcases List.mem_append.mp hu with h1 | h2
        · exact List.mem_append_left _ (hsub u h1)
        · simp only [List.map_cons, List.map_nil, List.mem_singleton] at h2
          subst h2
          exact List.mem_append_right _ (List.mem_singleton_self u)
  · exact ⟨List.nodup_nil, fun u hu => absurd hu (by simp)⟩

/-- C5: with max_depth = N > 0 no emitted FoundUrl corresponds to a URL
produced by more than N successful expansions from the base (the found
audit records, for each FoundUrl, the depth of its work item plus one);
with max_depth = 0 no discovered URL is ever enqueued — only the base's
wordlist fan-out happens, every FoundUrl being one expansion from the
base (lib.rs 321-323, 385-390). -/
theorem c5_depth_bound (cfg : ScanConfig) (net : Network) (base : Url)
    (visited0 : List Url) (ctrl : List ControlEvent) (fuel : Nat) :
    (0 < cfg.max_depth →
      ∀ p ∈ (startScan cfg net base visited0 ctrl fuel).found, p.2 ≤ cfg.max_depth) ∧
    (cfg.max_depth = 0 →
      (startScan cfg net base visited0 ctrl fuel).pushed = [] ∧
      ∀ p ∈ (startScan cfg net base visited0 ctrl fuel).found, p.2 = 1) := by
  constructor
  · intro hpos
    refine drainLoop_invariant cfg net
      (fun st => ∀ p ∈ st.found, p.2 ≤ cfg.max_depth) (fun _ => True)
      (fun _ _ _ _ => trivial) (fun st it rest hq h => h) ?_ fuel _ ?_
    · intro it w st _ hcond h p hp
      have hd : it.2 < cfg.max_depth := by
        rcases hcond with h0 | h1
        · omega
        · exact h1
      rcases runTask_found_mem cfg net it w st p hp with h1 | h2
      · exact h p h1
      · omega
    · intro p hp
      exact absurd hp (List.not_mem_nil p)
  · intro hzero
    have h := drainLoop_invariant cfg net
      (fun st => st.pushed = [] ∧ (∀ q ∈ st.queue, q.2 = 0) ∧ ∀ p ∈ st.found, p.2 = 1)
      (fun it => it.2 = 0) ?_ ?_ ?_ fuel
      { queue := [(base, 0)], visited := visited0, events := [], pushed := [], found := [] }
      ?_
    · exact ⟨h.1, h.2.2⟩
    · intro st hp it hit
      exact hp.2.1 it hit
    · intro st it rest hq hp
      refine ⟨hp.1, ?_, hp.2.2⟩
      intro q hqm
      exact hp.2.1 q (by rw [hq]; exact List.mem_cons_of_mem it hqm)
    · intro it w st hQ hcond hp
      obtain ⟨hpu0, hqd, hfd⟩ := hp
      rcases runTask_state_cases cfg net it w st with
        ⟨hpu, hqu, -⟩ | ⟨v, -, hlt, -, -, -⟩
      · refine ⟨by rw [hpu]; exact hpu0, by rw [hqu]; exact hqd, ?_⟩
        intro p hpm
        rcases runTask_found_mem cfg net it w st p hpm with h1 | h2
        · exact hfd p h1
        · rw [h2, hQ]
      · omega
    · exact ⟨rfl, fun q hq => by
        rcases List.mem_singleton.mp hq with rfl
        rfl, fun p hp => absurd hp (List.not_mem_nil p)⟩

/-- C10: every recursion candidate perform_scan returns is inserted into
the visited set unconditionally, before the depth check that decides
enqueueing (lib.rs 382-384); an item at or beyond the depth limit
records the candidate as visited yet leaves queue and push history
untouched (lib.rs 385); and once a URL is in the visited set it is never
pushed again by any later task, even when rediscovered from a shallower
parent. -/
theorem c10_visited_before_depth_check (cfg : ScanConfig) (net : Network)
    (st : ScanState) (it it2 : Url × Nat) (w w2 : String) (u : Url)
    (st0 : ScanState) (fuel : Nat) :
    ((performScan net it.1 w cfg.method cfg.filters cfg.mode cfg.headers cfg.data).result =
        Except.ok (some u) → u ∈ (runTask cfg net it w st).visited) ∧
    (cfg.max_depth ≤ it2.2 →
      (runTask cfg net it2 w2 st).queue = st.queue ∧
      (runTask cfg net it2 w2 st).pushed = st.pushed) ∧
    (u ∈ st0.visited →
      ∀ p ∈ (drainLoop cfg net fuel st0).pushed, p.1 = u → p ∈ st0.pushed) := by
  refine ⟨?_, ?_, ?_⟩
  · intro hres
    unfold runTask
    dsimp only
    rw [hres]
    exact recordOutcome_mem_of_ok cfg.max_depth it.2 u
      (appendTaskEvents
        (performScan net it.1 w cfg.method cfg.filters cfg.mode cfg.headers cfg.data) it.2 st)
  · intro hd
    unfold runTask
    obtain ⟨h1, h2⟩ := recordOutcome_deep cfg.max_depth it2.2
      (performScan net it2.1 w2 cfg.method cfg.filters cfg.mode cfg.headers cfg.data).result
      (appendTaskEvents
        (performScan net it2.1 w2 cfg.method cfg.filters cfg.mode cfg.headers cfg.data) it2.2 st)
      hd
    exact ⟨h1, h2⟩
  · intro hv
    have h := drainLoop_invariant cfg net
      (fun s => (∀ p ∈ s.pushed, p.1 = u → p ∈ st0.pushed) ∧ u ∈ s.visited)
      (fun _ => True) (fun _ _ _ _ => trivial) (fun s itm rest hq hp => hp) ?_ fuel st0
      ⟨fun p hp _ => hp, hv⟩
    · exact h.1
    · intro itm wm s _ _ hp
      obtain ⟨hpush, hvis⟩ := hp
      rcases runTask_state_cases cfg net itm wm s with
        ⟨hpu, -, hvc | ⟨v, -, hvc⟩⟩ | ⟨v, hvm, -, hpu, -, hvc⟩
      · exact ⟨by rw [hpu]; exact hpush, by rw [hvc]; exact hvis⟩
      · exact ⟨by rw [hpu]; exact hpush,
          by rw [hvc]; exact List.mem_append_left _ hvis⟩
      · refine ⟨?_, by rw [hvc]; exact List.mem_append_left _ hvis⟩
        rw [hpu]
        intro p hp hpe
        rcases List.mem_append.mp hp with h1 | h2
        · exact hpush p h1 hpe
        · rcases List.mem_singleton.mp h2 with rfl
          have hveq : v = u := hpe
          subst hveq
          exact absurd hvis hvm

/-! ## Counterexamples -/

/-- C1 counterexample: on a transport failure the task's channel does see
a RequestCompleted (the pre-request progress event of lib.rs 358) next to
the ErrorOccurred, and on a response the task sends two RequestCompleted
events, not one. -/
theorem c1_counterexample :
    (taskEvents cfgBase failNet urlRoot "a/").count ScanEvent.RequestCompleted = 1 ∧
    ScanEvent.ErrorOccurred "connection refused" ∈ taskEvents cfgBase failNet urlRoot "a/" ∧
    (taskEvents cfgBase ok200 urlRoot "a/").count ScanEvent.RequestCompleted = 2 :=
  ⟨rfl, by decide, rfl⟩

/-- C2 counterexample: with the same base URL given twice, the discovered
URL http://h/a/ is enqueued as a work base twice across the run — each
start_scan invocation has its own fresh visited set — and the visited set
of a run is not seeded with the base URL. -/
theorem c2_counterexample :
    List.count (urlA, 1) (runPushed cfgBase ok200 [urlRoot, urlRoot] 5) = 2 ∧
    urlRoot ∉ (startScan cfgBase ok200 urlRoot [] [] 5).visited :=
  ⟨rfl, by decide⟩

/-- C3 counterexample: with a Stop control event signalled for the whole
run, start_scan still emits no ScanStopped and still ends with
ScanFinished — Stop never replaces ScanFinished by ScanStopped. -/
theorem c3_counterexample :
    (scanTrace cfgBase ok200 urlRoot [] [ControlEvent.Stop] 5).count
        ScanEvent.ScanStopped = 0 ∧
    (scanTrace cfgBase ok200 urlRoot [] [ControlEvent.Stop] 5).getLast? =
      some ScanEvent.ScanFinished :=
  ⟨rfl, rfl⟩

/-! ## Witnesses -/

/-- C1 witness: the amended protocol at a concrete request, against a
failing transport and against a 200 server. -/
theorem c1_witness :
    scanRequest urlRoot "a/" cfgBase.method cfgBase.mode cfgBase.headers cfgBase.data =
        Except.ok reqA ∧
    (∀ msg, failNet reqA = Except.error msg →
      (performScan failNet urlRoot "a/" cfgBase.method cfgBase.filters cfgBase.mode
          cfgBase.headers cfgBase.data).events = [ScanEvent.ErrorOccurred msg] ∧
      taskEvents cfgBase failNet urlRoot "a/" =
        [ScanEvent.RequestCompleted, ScanEvent.ErrorOccurred msg]) ∧
    (∀ res, ok200 reqA = Except.ok res →
      ∃ t, (performScan ok200 urlRoot "a/" cfgBase.method cfgBase.filters cfgBase.mode
          cfgBase.headers cfgBase.data).events = ScanEvent.RequestCompleted :: t ∧
        (t = [] ∨ ∃ s, t = [ScanEvent.FoundUrl s]) ∧
        (performScan ok200 urlRoot "a/" cfgBase.method cfgBase.filters cfgBase.mode
          cfgBase.headers cfgBase.data).events.count ScanEvent.RequestCompleted = 1 ∧
        taskEvents cfgBase ok200 urlRoot "a/" =
          ScanEvent.RequestCompleted :: ScanEvent.RequestCompleted :: t) :=
  ⟨rfl, (c1_task_event_protocol cfgBase failNet urlRoot "a/" reqA rfl).1,
    (c1_task_event_protocol cfgBase ok200 urlRoot "a/" reqA rfl).2⟩

/-- C4 witness: the filter pipeline at a concrete 200 response with no
filters set. -/
theorem c4_witness :
    scanRequest urlRoot "a/" HttpMethod.GET FuzzMode.Path [] none = Except.ok reqA ∧
    ok200 reqA = Except.ok res200 ∧
    (((∃ s, ScanEvent.FoundUrl s ∈ (performScan ok200 urlRoot "a/" HttpMethod.GET noFilters
        FuzzMode.Path [] none).events) ↔ responsePasses noFilters res200 = true) ∧
     (∀ u, (performScan ok200 urlRoot "a/" HttpMethod.GET noFilters FuzzMode.Path []
        none).result = Except.ok (some u) → responsePasses noFilters res200 = true)) :=
  ⟨rfl, rfl, c4_filter_pipeline ok200 urlRoot "a/" HttpMethod.GET noFilters FuzzMode.Path
    [] none reqA res200 rfl rfl⟩

/-- C5 witness: the depth bound at max_depth 1 and the no-recursion
behaviour at max_depth 0, on a concrete all-200 server. -/
theorem c5_witness :
    (0 < cfgBase.max_depth ∧
      ∀ p ∈ (startScan cfgBase ok200 urlRoot [] [] 5).found, p.2 ≤ cfgBase.max_depth) ∧
    (cfgDepth0.max_depth = 0 ∧
      (startScan cfgDepth0 ok200 urlRoot [] [] 5).pushed = [] ∧
      ∀ p ∈ (startScan cfgDepth0 ok200 urlRoot [] [] 5).found, p.2 = 1) :=
  ⟨⟨by decide, (c5_depth_bound cfgBase ok200 urlRoot [] [] 5).1 (by decide)⟩,
   ⟨rfl, (c5_depth_bound cfgDepth0 ok200 urlRoot [] [] 5).2 rfl⟩⟩

/-- C6 witness: the recursion signal at a concrete passing 200 response. -/
theorem c6_witness :
    scanRequest urlRoot "a/" HttpMethod.GET FuzzMode.Path [] none = Except.ok reqA ∧
    ok200 reqA = Except.ok res200 ∧
    responsePasses noFilters res200 = true ∧
    ((isSuccess res200.status = true →
      (performScan ok200 urlRoot "a/" HttpMethod.GET noFilters FuzzMode.Path [] none).result =
        Except.ok (some (ensurePathSlash reqA.url)) ∧
      (ensurePathSlash reqA.url).path =
        (if strEndsWith reqA.url.path "/" then reqA.url.path else reqA.url.path ++ "/")) ∧
     (isRedirection res200.status = true →
      (performScan ok200 urlRoot "a/" HttpMethod.GET noFilters FuzzMode.Path [] none).result =
        Except.ok (some reqA.url)) ∧
     (isSuccess res200.status = false → isRedirection res200.status = false →
      (performScan ok200 urlRoot "a/" HttpMethod.GET noFilters FuzzMode.Path [] none).result =
        Except.ok none)) :=
  ⟨rfl, rfl, rfl, c6_recursion_signal ok200 urlRoot "a/" HttpMethod.GET noFilters FuzzMode.Path
    [] none reqA res200 rfl rfl rfl⟩

/-- C8 witness: the marker is replaced in a concrete single-pair query,
and a concrete query without the marker fails with marker-missing and
sends nothing. -/
theorem c8_witness :
    ¬(HttpMethod.GET = HttpMethod.POST ∧ (none : Option String).isSome = true) ∧
    templateUrl HttpMethod.GET none FuzzMode.Parameter urlQ "7" =
      Except.ok { urlQ with query := [] ++ ("id", strReplace "FUZZ" "FUZZ" "7") :: [] } ∧
    (templateUrl HttpMethod.GET none FuzzMode.Parameter urlQ1 "7" =
        Except.error ScanError.markerMissing ∧
      performScan ok200 urlQ1 "7" HttpMethod.GET noFilters FuzzMode.Parameter [] none =
        { events := [], result := Except.error ScanError.markerMissing }) :=
  ⟨by simp,
   (c8_parameter_first_marker ok200 urlQ "7" HttpMethod.GET noFilters [] none (by simp)).1
     [] "id" "FUZZ" [] rfl (by simp) rfl,
   (c8_parameter_first_marker ok200 urlQ1 "7" HttpMethod.GET noFilters [] none (by simp)).2
     (by decide)⟩

/-- C9 witness: a concrete reachable pool state (one acquisition out of
three tasks under two permits) respects the bound. -/
theorem c9_witness :
    1 ≤ 2 ∧ PoolReachable 2 3 { pending := 2, inFlight := 1, finished := 0 } ∧
    PoolState.inFlight { pending := 2, inFlight := 1, finished := 0 } ≤ 2 := by
  have hr : PoolReachable 2 3 { pending := 2, inFlight := 1, finished := 0 } :=
    Relation.ReflTransGen.single
      (PoolStep.acquire { pending := 3, inFlight := 0, finished := 0 }
        (by decide) (by decide))
  exact ⟨by decide, hr, c9_concurrency_bound 2 3 _ (by decide) hr⟩

/-- C10 witness: the three parts at concrete inputs — a candidate found at
depth 0 lands in the visited set; an item at the depth limit leaves queue
and push history untouched; a state that already visited urlA never
pushes it again. -/
theorem c10_witness :
    ((performScan ok200 urlRoot "a/" cfgBase.method cfgBase.filters cfgBase.mode
        cfgBase.headers cfgBase.data).result = Except.ok (some urlA) ∧
      urlA ∈ (runTask cfgBase ok200 (urlRoot, 0) "a/" stEmpty).visited) ∧
    (cfgBase.max_depth ≤ 1 ∧
      (runTask cfgBase ok200 (urlRoot, 1) "a/" stEmpty).queue = stEmpty.queue ∧
      (runTask cfgBase ok200 (urlRoot, 1) "a/" stEmpty).pushed = stEmpty.pushed) ∧
    (urlA ∈ stSeen.visited ∧
      ∀ p ∈ (drainLoop cfgBase ok200 5 stSeen).pushed, p.1 = urlA → p ∈ stSeen.pushed) :=
  ⟨⟨rfl, (c10_visited_before_depth_check cfgBase ok200 stEmpty (urlRoot, 0) (urlRoot, 1)
      "a/" "a/" urlA stSeen 5).1 rfl⟩,
   ⟨by decide, (c10_visited_before_depth_check cfgBase ok200 stEmpty (urlRoot, 0) (urlRoot, 1)
      "a/" "a/" urlA stSeen 5).2.1 (by decide)⟩,
   ⟨by decide, (c10_visited_before_depth_check cfgBase ok200 stEmpty (urlRoot, 0) (urlRoot, 1)
      "a/" "a/" urlA stSeen 5).2.2 (by decide)⟩⟩

end Dircrab
